import Mathlib

/-!
Verification of the duplicate-detection core of the AI photo cleaner.

Strings are embedded as `List Char`; SQLite tables as Lean lists of rows;
each service method as a pure state-passing function translated from the
TypeScript source.  Fallible steps are `Except`-valued and the `try/catch`
structure of the source is mirrored explicitly.
-/

namespace AIPhotoCleaner

/- ===================================================================
   PerceptualHashService  (src/unnamed/part_002)
   =================================================================== -/

/-- The character class of the regex `[0-9a-fA-F]` used by
`normalizeHashLength` (written out as the explicit list of characters). -/
def hexDigitChars : List Char := ("0123456789abcdefABCDEF").toList

/-- Whether a character matches the regex character class `[0-9a-fA-F]`. -/
def isHexChar (c : Char) : Bool := hexDigitChars.contains c

/-- `PerceptualHashService.normalizeHashLength`: strip non-hex characters,
lowercase, then truncate to 64 characters or pad with zeros on the right. -/
def normalizeHashLength (hash : List Char) : List Char :=
  let cleanHash := (hash.filter isHexChar).map Char.toLower
  if 64 < cleanHash.length then cleanHash.take 64
  else if cleanHash.length < 64 then
    cleanHash ++ List.replicate (64 - cleanHash.length) ('0')
  else cleanHash

/-- `parseInt(char, 16)` restricted to single hex digits (other characters,
which cannot occur after normalization, are mapped to 0). -/
def hexCharVal (c : Char) : Nat :=
  match c with
  | '0' => 0 | '1' => 1 | '2' => 2 | '3' => 3 | '4' => 4
  | '5' => 5 | '6' => 6 | '7' => 7 | '8' => 8 | '9' => 9
  | 'a' => 10 | 'b' => 11 | 'c' => 12 | 'd' => 13 | 'e' => 14 | 'f' => 15
  | 'A' => 10 | 'B' => 11 | 'C' => 12 | 'D' => 13 | 'E' => 14 | 'F' => 15
  | _ => 0

/-- One binary digit character. -/
def bitChar (b : Nat) : Char := if b % 2 == 1 then '1' else '0'

/-- `parseInt(char, 16).toString(2).padStart(4, '0')`: the four binary
digit characters of one hex digit, most significant bit first. -/
def hexCharToBin (c : Char) : List Char :=
  [bitChar (hexCharVal c / 8), bitChar (hexCharVal c / 4),
   bitChar (hexCharVal c / 2), bitChar (hexCharVal c)]

/-- `PerceptualHashService.hexToBinary`: normalize to 64 hex characters,
then expand every character to its four binary digits. -/
def hexToBinary (hex : List Char) : List Char :=
  (normalizeHashLength hex).flatMap hexCharToBin

/-- Number of positions at which two equal-length strings differ
(the loop body of `calculateHammingDistance`). -/
def countDiff (hash1 hash2 : List Char) : Nat :=
  (hash1.zip hash2).countP (fun pr => pr.1 != pr.2)

/-- `PerceptualHashService.calculateHammingDistance`: throws when the two
strings have different lengths, otherwise counts differing positions. -/
def calculateHammingDistance (hash1 hash2 : List Char) : Except String Nat :=
  if hash1.length ≠ hash2.length then
    Except.error ("Hash lengths must match: " ++ toString hash1.length
      ++ " vs " ++ toString hash2.length)
  else
    Except.ok (countDiff hash1 hash2)

/-- The `try` block of `PerceptualHashService.isVisuallySimilar`: exact
equality short-circuit, then Hamming distance over the binary expansions
of the two (normalized) hashes, compared against the threshold. -/
def isVisuallySimilarTry (hash1 hash2 : List Char) (threshold : Nat) :
    Except String Bool :=
  if hash1 = hash2 then Except.ok true
  else
    match calculateHammingDistance (hexToBinary hash1) (hexToBinary hash2) with
    | Except.ok hammingDistance => Except.ok (decide (hammingDistance ≤ threshold))
    | Except.error e => Except.error e

/-- `PerceptualHashService.isVisuallySimilar`: the `try` block with the
`catch` fallback to exact equality. -/
def isVisuallySimilar (hash1 hash2 : List Char) (threshold : Nat) : Bool :=
  match isVisuallySimilarTry hash1 hash2 threshold with
  | Except.ok b => b
  | Except.error _ => hash1 == hash2

/-- Binary expansion of a hex string as written (no normalization); used to
state the threshold-boundary claim. -/
def binaryExpansion (hex : List Char) : List Char := hex.flatMap hexCharToBin

/-- Hamming distance between the binary expansions of two fingerprints. -/
def hammingDistanceBits (h1 h2 : List Char) : Nat :=
  countDiff (binaryExpansion h1) (binaryExpansion h2)

/- ===================================================================
   DatabaseService  (src/src/services/DatabaseService.ts)

   The SQLite tables from the migration schema are embedded as lists of
   rows in insertion (rowid) order; `AUTOINCREMENT` ids are modelled by
   `nextPhotoId` / `nextGroupId` counters.  `quality_score REAL` is
   modelled as `Int` (nothing in the verified code does arithmetic on
   it).  `created_at` / `updated_at` audit timestamps are omitted.
   =================================================================== -/

/-- One row of the `photos` table. -/
structure PhotoRow where
  id : Nat
  localIdentifier : String
  filePath : String
  fileName : String
  fileSize : Nat
  width : Nat
  height : Nat
  creationDate : String
  modificationDate : String
  hashValue : Option String
  qualityScore : Int
  isDuplicate : Bool
  isDeleted : Bool
  deriving DecidableEq

/-- One row of the `duplicate_groups` table (the `recommended_keep_id`
column exists in the schema but is never written by any code path, so it
is omitted and read back as null). -/
structure GroupRow where
  id : Nat
  groupHash : String
  photoCount : Nat
  totalSize : Nat
  deriving DecidableEq

/-- One row of the `duplicate_group_photos` junction table. -/
structure GroupPhotoRow where
  groupId : Nat
  photoId : Nat
  isRecommendedKeep : Bool
  deriving DecidableEq

/-- The persistent store state. -/
structure DB where
  photos : List PhotoRow
  groups : List GroupRow
  groupPhotos : List GroupPhotoRow
  nextPhotoId : Nat
  nextGroupId : Nat
  deriving DecidableEq

/-- `SELECT * FROM photos WHERE id = ?` (`DatabaseService.getPhoto`). -/
def getPhoto (db : DB) (id : Nat) : Option PhotoRow :=
  db.photos.find? (fun p => p.id == id)

/-- Net effect of the per-photo `UPDATE photos SET is_duplicate = TRUE
WHERE id = ?` statements issued for every id in `pids`. -/
def markPhotosDuplicate (photos : List PhotoRow) (pids : List Nat) : List PhotoRow :=
  photos.map fun p =>
    if pids.contains p.id then { p with isDuplicate := true } else p

/-- Net effect of the per-photo `updatePhoto(id, { isDeleted: true })`
statements issued for every id in `pids`. -/
def markPhotosDeleted (photos : List PhotoRow) (pids : List Nat) : List PhotoRow :=
  photos.map fun p =>
    if pids.contains p.id then { p with isDeleted := true } else p

/-- `UPDATE duplicate_groups SET photo_count = ? WHERE id = ?`. -/
def setGroupCount (groups : List GroupRow) (gid n : Nat) : List GroupRow :=
  groups.map fun g => if g.id == gid then { g with photoCount := n } else g

/-- `SELECT photo_id FROM duplicate_group_photos WHERE group_id = ?`:
the photo ids of a group's membership rows. -/
def memberIds (db : DB) (gid : Nat) : List Nat :=
  (db.groupPhotos.filter (fun gp => gp.groupId == gid)).map (fun gp => gp.photoId)

/-- The live (non-deleted) member photos of a group: the membership rows
of the group joined to existing, non-deleted photo rows (photo ids are
unique in the schema, so the join is a lookup). -/
def liveMembers (db : DB) (gid : Nat) : List PhotoRow :=
  (db.groupPhotos.filter (fun gp => gp.groupId == gid)).filterMap fun gp =>
    match db.photos.find? (fun p => p.id == gp.photoId) with
    | some p => if p.isDeleted then none else some p
    | none => none

/-- The aggregate byte size of the live members of a group — the
`COALESCE(SUM(p.file_size), 0)` subquery of `updateGroupTotalSize`. -/
def liveSize (db : DB) (gid : Nat) : Nat :=
  ((liveMembers db gid).map (fun p => p.fileSize)).sum

/-- `DatabaseService.updateGroupTotalSize`: recompute `total_size` of one
group from its live members. -/
def updateGroupTotalSize (db : DB) (gid : Nat) : DB :=
  { db with groups := db.groups.map fun g =>
      if g.id == gid then { g with totalSize := liveSize db gid } else g }

/-- The membership rows inserted for a freshly created group: the loop
`for i, photoId in photoIds` with `is_recommended_keep := (i == 0)`,
started at index `i`. -/
def memberRows (gid : Nat) : Nat → List Nat → List GroupPhotoRow
  | _, [] => []
  | i, pid :: rest => ⟨gid, pid, i == 0⟩ :: memberRows gid (i + 1) rest

/-- The merge path's insertion loop: append membership rows (not flagged
recommended-keep) for the photos not yet in the group and mark each of
them duplicate. -/
def appendToGroup (db : DB) (gid : Nat) (newPhotoIds : List Nat) : DB :=
  { db with
    groupPhotos := db.groupPhotos
      ++ newPhotoIds.map (fun pid => (⟨gid, pid, false⟩ : GroupPhotoRow)),
    photos := markPhotosDuplicate db.photos newPhotoIds }

/-- The merge path's persistence: append the new members, then set the
group's `photo_count` to the previous count plus the number added. -/
def mergePersist (db : DB) (gid oldCount : Nat) (newPhotoIds : List Nat) : DB :=
  let db1 := appendToGroup db gid newPhotoIds
  { db1 with
    groups := setGroupCount db1.groups gid (oldCount + newPhotoIds.length) }

/-- The create path's persistence: insert the group row (count = number
of supplied photos, size 0 pending recomputation), its membership rows
(first photo flagged recommended-keep), and mark every photo duplicate. -/
def insertNewGroup (db : DB) (groupHash : String) (photoIds : List Nat) : DB :=
  { db with
    groups := db.groups ++ [⟨db.nextGroupId, groupHash, photoIds.length, 0⟩],
    nextGroupId := db.nextGroupId + 1,
    groupPhotos := db.groupPhotos ++ memberRows db.nextGroupId 0 photoIds,
    photos := markPhotosDuplicate db.photos photoIds }

/-- `DatabaseService.createDuplicateGroup`: if a group with the hash
exists, append only the photos not already members (updating the count
and recomputing the size only when something was added) and return the
existing id; otherwise insert a new group, recompute its size, and
return the new id. -/
def createDuplicateGroup (db : DB) (groupHash : String) (photoIds : List Nat) :
    DB × Nat :=
  match db.groups.find? (fun g => g.groupHash == groupHash) with
  | some existing =>
    let existingIds := memberIds db existing.id
    let newPhotoIds := photoIds.filter (fun pid => !(existingIds.contains pid))
    if 0 < newPhotoIds.length then
      (updateGroupTotalSize
        (mergePersist db existing.id existing.photoCount newPhotoIds) existing.id,
       existing.id)
    else
      (db, existing.id)
  | none =>
    (updateGroupTotalSize (insertNewGroup db groupHash photoIds) db.nextGroupId,
     db.nextGroupId)

/-- `DatabaseService.markGroupAsNotDuplicate`: delete the membership rows
of the group, then the group row itself (in one transaction). -/
def markGroupAsNotDuplicate (db : DB) (groupId : Nat) : DB :=
  { db with
    groupPhotos := db.groupPhotos.filter (fun gp => !(gp.groupId == groupId)),
    groups := db.groups.filter (fun g => !(g.id == groupId)) }

/-- Insertion of one element into a list sorted by the boolean order
`le`; used to model `ORDER BY` and JavaScript `Array.sort`. -/
def insertSorted (le : α → α → Bool) (a : α) : List α → List α
  | [] => [a]
  | b :: bs => if le a b then a :: b :: bs else b :: insertSorted le a bs

/-- A stable comparison sort (insertion sort). -/
def sortBy (le : α → α → Bool) (l : List α) : List α :=
  l.foldr (insertSorted le) []

/-- Lexicographic order on code points — the default JavaScript string
sort used for group-key derivation. -/
def strLe : List Char → List Char → Bool
  | [], _ => true
  | a :: as, b :: bs =>
    if a.val < b.val then true
    else if b.val < a.val then false
    else strLe as bs
  | _, _ => false

/-- The member ordering `ORDER BY dgp.is_recommended_keep DESC,
p.quality_score DESC` of `getDuplicateGroups`. -/
def memberOrder (a b : PhotoRow × Bool) : Bool :=
  if a.2 == b.2 then b.1.qualityScore ≤ a.1.qualityScore else a.2

/-- A group as returned to callers. -/
structure GroupResult where
  id : Nat
  groupHash : String
  photoCount : Nat
  totalSize : Nat
  photos : List PhotoRow
  recommendedKeepId : Option Nat
  deriving DecidableEq

/-- `DatabaseService.getDuplicateGroups`: all groups ordered by
`total_size DESC`, each with its live members joined in; the
`recommended_keep_id` column is never populated, so it maps to null. -/
def getDuplicateGroups (db : DB) : List GroupResult :=
  (sortBy (fun g1 g2 => g2.totalSize ≤ g1.totalSize) db.groups).map fun g =>
    let members :=
      (db.groupPhotos.filter (fun gp => gp.groupId == g.id)).filterMap fun gp =>
        match db.photos.find? (fun p => p.id == gp.photoId) with
        | some p => if p.isDeleted then none else some (p, gp.isRecommendedKeep)
        | none => none
    { id := g.id, groupHash := g.groupHash, photoCount := g.photoCount,
      totalSize := g.totalSize,
      photos := (sortBy memberOrder members).map (fun m => m.1),
      recommendedKeepId := none }

/-- The input of `DatabaseService.savePhoto`
(`Omit<PhotoMetadata, 'id' | 'createdAt' | 'updatedAt'>`). -/
structure PhotoInput where
  localIdentifier : String
  filePath : String
  fileName : String
  fileSize : Nat
  width : Nat
  height : Nat
  creationDate : String
  modificationDate : String
  hashValue : Option String
  qualityScore : Option Int
  isDuplicate : Bool
  isDeleted : Bool
  deriving DecidableEq

/-- JavaScript truthiness of `photo.hashValue`: null/undefined and the
empty string are falsy. -/
def hashTruthy : Option String → Bool
  | none => false
  | some s => !(s == "")

/-- `photo.hashValue || null` as stored by the INSERT. -/
def hashOrNull (h : Option String) : Option String :=
  if hashTruthy h then h else none

/-- `DatabaseService.savePhoto`: if a row with the same
`local_identifier` exists, update only its hash (when a different truthy
hash is supplied) and return the existing id; otherwise insert a fresh
row and return its id. -/
def savePhoto (db : DB) (photo : PhotoInput) : DB × Nat :=
  match db.photos.find? (fun p => p.localIdentifier == photo.localIdentifier) with
  | some existing =>
    match photo.hashValue with
    | some hv =>
      if hv ≠ "" ∧ some hv ≠ existing.hashValue then
        ({ db with photos := db.photos.map fun p =>
            if p.id == existing.id then { p with hashValue := some hv } else p },
         existing.id)
      else (db, existing.id)
    | none => (db, existing.id)
  | none =>
    let pid := db.nextPhotoId
    ({ db with
        photos := db.photos ++
          [{ id := pid, localIdentifier := photo.localIdentifier,
             filePath := photo.filePath, fileName := photo.fileName,
             fileSize := photo.fileSize, width := photo.width,
             height := photo.height, creationDate := photo.creationDate,
             modificationDate := photo.modificationDate,
             hashValue := hashOrNull photo.hashValue,
             qualityScore := photo.qualityScore.getD 0,
             isDuplicate := photo.isDuplicate, isDeleted := photo.isDeleted }],
        nextPhotoId := pid + 1 },
     pid)

/- ===================================================================
   DuplicateDetectionService  (src/src/services/DuplicateDetectionService.ts)
   =================================================================== -/

/-- A device photo as supplied to `analyzePhotos` (the `Photo` type of
`src/types`; the media fields not read by the verified code are
omitted). -/
structure Photo where
  id : String
  localIdentifier : String
  uri : String
  filename : String
  fileSize : Nat
  width : Nat
  height : Nat
  deriving DecidableEq

/-- Lookup in the metadata cache (a map keyed by `localIdentifier`,
built from the `getAllPhotos` rows). -/
def cacheFind (cache : List PhotoRow) (lid : String) : Option PhotoRow :=
  cache.find? (fun m => m.localIdentifier == lid)

/-- `duplicateSet.reduce((largest, current) => current.fileSize >
largest.fileSize ? current : largest)` on the non-empty list
`p :: rest`. -/
def largestOf (p : Photo) (rest : List Photo) : Photo :=
  rest.foldl (fun largest current =>
    if largest.fileSize < current.fileSize then current else largest) p

/-- The body of the group-creation loop of `analyzePhotos` for one
confirmed duplicate set: look the members up in the metadata cache,
derive the group key (lexically least member hash), persist the group
via `createDuplicateGroup`, and build the returned group object together
with the space saved for this group.  Sets whose cache lookup yields at
most one record produce no group. -/
def mkGroup (cache : List PhotoRow) (db : DB) : List Photo →
    DB × Option (GroupResult × Nat)
  | [] => (db, none)
  | p :: rest =>
    let duplicateSet := p :: rest
    let photoMetadataList :=
      duplicateSet.filterMap (fun photo => cacheFind cache photo.localIdentifier)
    if 1 < photoMetadataList.length then
      let allHashes :=
        sortBy strLe ((photoMetadataList.filterMap (fun m => m.hashValue)).map
          (fun s => s.toList))
      let groupHash := (allHashes.headD (("unknown").toList)).asString
      let photoIds := photoMetadataList.map (fun m => m.id)
      let res := createDuplicateGroup db groupHash photoIds
      let totalSize := (duplicateSet.map (fun q => q.fileSize)).sum
      let largestPhoto := largestOf p rest
      let recommendedKeepId :=
        ((photoMetadataList.find? (fun m =>
            m.localIdentifier == largestPhoto.localIdentifier)).map
          (fun m => m.id)).getD ((photoMetadataList.map (fun m => m.id)).headD 0)
      let spaceSaved := totalSize - largestPhoto.fileSize
      (res.1, some
        ({ id := res.2, groupHash := groupHash,
           photoCount := duplicateSet.length, totalSize := totalSize,
           photos := photoMetadataList,
           recommendedKeepId := some recommendedKeepId }, spaceSaved))
    else (db, none)

/-- The whole group-creation loop of `analyzePhotos`: thread the store
through `mkGroup` over every confirmed duplicate set, collecting the
returned groups and accumulating `totalSpaceSaved`. -/
def buildGroups (cache : List PhotoRow) : DB → List (List Photo) →
    DB × List GroupResult × Nat
  | db, [] => (db, [], 0)
  | db, s :: rest =>
    match mkGroup cache db s with
    | (db1, none) => buildGroups cache db1 rest
    | (db1, some (g, saved)) =>
      let r := buildGroups cache db1 rest
      (r.1, g :: r.2.1, saved + r.2.2)

/-- The result record of `deleteDuplicatePhotos`. -/
structure DeleteResult where
  success : Bool
  deletedCount : Nat
  errors : List String
  deriving DecidableEq

/-- `DuplicateDetectionService.deleteDuplicatePhotos`.  The device
deletion step (`photoService.deletePhotos`) is an oracle returning
either the deleted count or a thrown error; per-photo database-update
failures are an oracle predicate on photo ids.  The function mirrors the
source's try/catch structure: photos not found are skipped with an
error, an empty lookup result short-circuits, a device-deletion throw is
caught by the outer catch, and each database update failure is caught
per photo.  (Database reads are modelled as total, so the
`Failed to get photo metadata` branch of the lookup loop is vacuous.) -/
def deleteDuplicatePhotos (db : DB)
    (deviceDelete : List String → Except String Nat)
    (updateFails : Nat → Bool) (_groupId : Nat) (photoIdsToDelete : List Nat) :
    DB × DeleteResult :=
  let photosToDelete := photoIdsToDelete.filterMap (fun pid => getPhoto db pid)
  let lookupErrors :=
    (photoIdsToDelete.filter (fun pid => (getPhoto db pid).isNone)).map
      (fun pid => ("Photo not found: ") ++ toString pid)
  if photosToDelete.length = 0 then
    (db, { success := false, deletedCount := 0,
           errors := [("No photos found to delete")] })
  else
    match deviceDelete (photosToDelete.map (fun p => p.localIdentifier)) with
    | Except.error msg =>
      (db, { success := false, deletedCount := 0,
             errors := lookupErrors ++ [msg] })
    | Except.ok deletedCount =>
      let updateErrors :=
        (photosToDelete.filter (fun p => updateFails p.id)).map
          (fun p => ("Failed to update database for photo ") ++ p.fileName)
      let updatedIds :=
        (photosToDelete.filter (fun p => !(updateFails p.id))).map
          (fun p => p.id)
      let db1 := { db with photos := markPhotosDeleted db.photos updatedIds }
      (db1, { success := 0 < deletedCount, deletedCount := deletedCount,
              errors := lookupErrors ++ updateErrors })

/- ===================================================================
   Spec-side definitions (written from the specification's words, for
   stating claims against the code-derived definitions above)
   =================================================================== -/

/-- The byte size of the member a returned group's `recommendedKeepId`
identifies (0 when no member carries that id). -/
def sizeOfRecommendedKeep (g : GroupResult) : Nat :=
  ((g.photos.find? (fun m => some m.id == g.recommendedKeepId)).map
    (fun m => m.fileSize)).getD 0

/-- The group-consistency invariant of the specification: every group's
stored member count equals its number of live members and its stored
aggregate size equals the sum of the live members' sizes. -/
def dbConsistent (db : DB) : Bool :=
  db.groups.all fun g =>
    g.photoCount == (liveMembers db g.id).length
      && g.totalSize == liveSize db g.id

/- ===================================================================
   Lemmas about the fingerprint functions
   =================================================================== -/

theorem hexCharToBin_toLower :
    ∀ c ∈ hexDigitChars, hexCharToBin (Char.toLower c) = hexCharToBin c := by
  decide

theorem isHexChar_toLower :
    ∀ c ∈ hexDigitChars, isHexChar (Char.toLower c) = true := by
  decide

theorem normalizeHashLength_length (hash : List Char) :
    (normalizeHashLength hash).length = 64 := by
  unfold normalizeHashLength
  set clean := (hash.filter isHexChar).map Char.toLower with hc
  by_cases h1 : 64 < clean.length
  · simp only [if_pos h1, List.length_take]
    omega
  · simp only [if_neg h1]
    by_cases h2 : clean.length < 64
    · simp only [if_pos h2, List.length_append, List.length_replicate]
      omega
    · simp only [if_neg h2]
      omega

theorem normalizeHashLength_hex (hash : List Char) :
    ∀ c ∈ normalizeHashLength hash, isHexChar c = true := by
  intro c hc
  have base : ∀ d ∈ (hash.filter isHexChar).map Char.toLower, isHexChar d = true := by
    intro d hd
    obtain ⟨e, he, rfl⟩ := List.mem_map.mp hd
    have hex : isHexChar e = true := List.of_mem_filter he
    exact isHexChar_toLower e (List.elem_iff.mp hex)
  unfold normalizeHashLength at hc
  set clean := (hash.filter isHexChar).map Char.toLower with hcl
  by_cases h1 : 64 < clean.length
  · simp only [if_pos h1] at hc
    exact base c (List.mem_of_mem_take hc)
  · simp only [if_neg h1] at hc
    by_cases h2 : clean.length < 64
    · simp only [if_pos h2] at hc
      rcases List.mem_append.mp hc with h | h
      · exact base c h
      · rw [List.eq_of_mem_replicate h]
        decide
    · simp only [if_neg h2] at hc
      exact base c hc

theorem countDiff_self (l : List Char) : countDiff l l = 0 := by
  unfold countDiff
  induction l with
  | nil => rfl
  | cons a as ih =>
    simp only [List.zip_cons_cons, List.countP_cons, bne_self_eq_false,
      Bool.false_eq_true, if_false, ih]

theorem length_flatMap_hexCharToBin (l : List Char) :
    (l.flatMap hexCharToBin).length = 4 * l.length := by
  induction l with
  | nil => rfl
  | cons a as ih =>
    simp only [List.flatMap_cons, List.length_append, ih, List.length_cons]
    have : (hexCharToBin a).length = 4 := rfl
    omega

theorem hexToBinary_length (hash : List Char) :
    (hexToBinary hash).length = 256 := by
  unfold hexToBinary
  rw [length_flatMap_hexCharToBin, normalizeHashLength_length]

theorem normalizeHashLength_of_fixed (hash : List Char)
    (hlen : hash.length = 64) (hhex : ∀ c ∈ hash, isHexChar c = true) :
    normalizeHashLength hash = hash.map Char.toLower := by
  unfold normalizeHashLength
  rw [List.filter_eq_self.mpr hhex]
  have hl : (hash.map Char.toLower).length = 64 := by
    rw [List.length_map, hlen]
  rw [if_neg (by omega), if_neg (by omega)]

theorem hexToBinary_of_fixed (hash : List Char)
    (hlen : hash.length = 64) (hhex : ∀ c ∈ hash, isHexChar c = true) :
    hexToBinary hash = binaryExpansion hash := by
  unfold hexToBinary binaryExpansion
  rw [normalizeHashLength_of_fixed hash hlen hhex, List.flatMap_map]
  exact List.flatMap_congr fun c hc =>
    hexCharToBin_toLower c (List.elem_iff.mp (hhex c hc))

/- ===================================================================
   Claim theorems: fingerprint layer (C7, C2, C3)
   =================================================================== -/

/-- Claim C7 (confirmed): for every input string — empty, short, long,
or containing non-hex characters — `normalizeHashLength` returns exactly
64 hexadecimal characters, and the Hamming-distance computation between
the binary expansions of any two normalized fingerprints succeeds. -/
theorem normalizeHashLength_fixed_length (hash : List Char) :
    (normalizeHashLength hash).length = 64
    ∧ (∀ c ∈ normalizeHashLength hash, isHexChar c = true)
    ∧ ∀ hash2 : List Char,
        calculateHammingDistance (binaryExpansion (normalizeHashLength hash))
            (binaryExpansion (normalizeHashLength hash2))
          = Except.ok (hammingDistanceBits (normalizeHashLength hash)
              (normalizeHashLength hash2)) := by
  refine ⟨normalizeHashLength_length hash, normalizeHashLength_hex hash, ?_⟩
  intro hash2
  have hlen : ∀ h : List Char,
      (binaryExpansion (normalizeHashLength h)).length = 256 := by
    intro h
    unfold binaryExpansion
    rw [length_flatMap_hexCharToBin, normalizeHashLength_length]
  unfold calculateHammingDistance hammingDistanceBits
  rw [if_neg (by rw [hlen, hlen]; exact fun h => h rfl)]

/-- Claim C2 (confirmed): for 64-hex-character fingerprints and any
threshold, `isVisuallySimilar` returns true exactly when the Hamming
distance between the binary expansions is at most the threshold; hence
distance exactly `t` is judged similar and distance `t + 1` is not. -/
theorem isVisuallySimilar_iff_hamming_le (h1 h2 : List Char) (t : Nat)
    (hl1 : h1.length = 64) (hl2 : h2.length = 64)
    (hx1 : ∀ c ∈ h1, isHexChar c = true) (hx2 : ∀ c ∈ h2, isHexChar c = true) :
    isVisuallySimilar h1 h2 t = true ↔ hammingDistanceBits h1 h2 ≤ t := by
  unfold isVisuallySimilar isVisuallySimilarTry
  by_cases heq : h1 = h2
  · subst heq
    simp only [if_pos rfl]
    unfold hammingDistanceBits
    rw [countDiff_self]
    simp
  · simp only [if_neg heq]
    unfold calculateHammingDistance
    rw [if_neg (by rw [hexToBinary_length, hexToBinary_length]; exact fun h => h rfl)]
    rw [hexToBinary_of_fixed h1 hl1 hx1, hexToBinary_of_fixed h2 hl2 hx2]
    unfold hammingDistanceBits
    simp

/-- Witness for C2 at a concrete input: two all-zero 64-character
fingerprints at distance 0 with threshold 0 are judged similar. -/
theorem isVisuallySimilar_iff_hamming_le_witness :
    isVisuallySimilar (List.replicate 64 ('0')) (List.replicate 64 ('0')) 0 = true
      ↔ hammingDistanceBits (List.replicate 64 ('0')) (List.replicate 64 ('0')) ≤ 0 :=
  isVisuallySimilar_iff_hamming_le (List.replicate 64 ('0'))
    (List.replicate 64 ('0')) 0 (by decide) (by decide) (by decide) (by decide)

set_option maxRecDepth 8192 in
/-- Counterexample to claim C3: the inputs `"a"` (length 1) and `""`
(length 0) are both malformed (not 64 characters), yet the similarity
evaluation does not raise: the `try` block silently normalizes both and
returns a verdict, and `isVisuallySimilar` returns `true`. -/
theorem malformed_inputs_do_not_raise :
    (['a'].length ≠ 64 ∧ ([] : List Char).length ≠ 64)
    ∧ isVisuallySimilarTry ['a'] [] 10 = Except.ok true
    ∧ isVisuallySimilar ['a'] [] 10 = true :=
  ⟨⟨by decide, by decide⟩, rfl, rfl⟩

/-- Claim C3 amended (proved): for every pair of inputs, well-formed or
malformed, the similarity evaluation never raises: the `try` block of
`isVisuallySimilar` always returns a verdict (both inputs having been
normalized to the fixed length first), so the `catch` fallback is dead
code and no `MalformedFingerprintError` can surface. -/
theorem isVisuallySimilarTry_never_errors (h1 h2 : List Char) (t : Nat) :
    isVisuallySimilarTry h1 h2 t = Except.ok (isVisuallySimilar h1 h2 t) := by
  unfold isVisuallySimilar isVisuallySimilarTry
  by_cases heq : h1 = h2
  · simp only [if_pos heq]
  · simp only [if_neg heq]
    unfold calculateHammingDistance
    rw [if_neg (by rw [hexToBinary_length, hexToBinary_length]; exact fun h => h rfl)]

/- ===================================================================
   Lemmas about the store operations
   =================================================================== -/

theorem find?_map_pred {α : Type} (f : α → α) (p : α → Bool)
    (hp : ∀ a, p (f a) = p a) (l : List α) :
    (l.map f).find? p = (l.find? p).map f := by
  induction l with
  | nil => rfl
  | cons a as ih =>
    cases hpa : p a with
    | true =>
      rw [List.map_cons, List.find?_cons_of_pos _ (by rw [hp a, hpa]),
        List.find?_cons_of_pos _ hpa, Option.map_some']
    | false =>
      rw [List.map_cons, List.find?_cons_of_neg _ (by simp [hp a, hpa]),
        List.find?_cons_of_neg _ (by simp [hpa]), ih]

theorem memberRows_map_photoId (gid : Nat) (i : Nat) (pids : List Nat) :
    (memberRows gid i pids).map (fun gp => gp.photoId) = pids := by
  induction pids generalizing i with
  | nil => rfl
  | cons a as ih => simp [memberRows, ih]

theorem memberRows_groupId (gid : Nat) (i : Nat) (pids : List Nat) :
    ∀ gp ∈ memberRows gid i pids, gp.groupId = gid := by
  induction pids generalizing i with
  | nil => intro gp hgp; cases hgp
  | cons a as ih =>
    intro gp hgp
    rcases List.mem_cons.mp hgp with rfl | h
    · rfl
    · exact ih (i + 1) gp h

theorem memberIds_groupPhotos_append (photos : List PhotoRow)
    (groups : List GroupRow) (l1 l2 : List GroupPhotoRow) (np ng gid : Nat) :
    memberIds ⟨photos, groups, l1 ++ l2, np, ng⟩ gid
      = memberIds ⟨photos, groups, l1, np, ng⟩ gid
        ++ memberIds ⟨photos, groups, l2, np, ng⟩ gid := by
  unfold memberIds
  rw [List.filter_append, List.map_append]

theorem memberIds_memberRows (photos : List PhotoRow) (groups : List GroupRow)
    (np ng gid i : Nat) (pids : List Nat) :
    memberIds ⟨photos, groups, memberRows gid i pids, np, ng⟩ gid = pids := by
  unfold memberIds
  rw [List.filter_eq_self.mpr
    (fun gp hgp => by simp [memberRows_groupId gid i pids gp hgp]),
    memberRows_map_photoId]

theorem memberIds_newRows (photos : List PhotoRow) (groups : List GroupRow)
    (np ng gid : Nat) (pids : List Nat) :
    memberIds ⟨photos, groups,
      pids.map (fun pid => (⟨gid, pid, false⟩ : GroupPhotoRow)), np, ng⟩ gid = pids := by
  unfold memberIds
  rw [List.filter_map, List.map_map]
  show List.map (fun pid : Nat => pid) (List.filter (fun _ : Nat => gid == gid) pids) = pids
  simp

/-- `createDuplicateGroup` is a no-op returning the existing id whenever a
group with the hash exists and every supplied photo is already a member. -/
theorem createDuplicateGroup_skip (db : DB) (h : String) (ids : List Nat)
    (g : GroupRow) (hfind : db.groups.find? (fun x => x.groupHash == h) = some g)
    (hmem : ∀ pid ∈ ids, pid ∈ memberIds db g.id) :
    createDuplicateGroup db h ids = (db, g.id) := by
  unfold createDuplicateGroup
  rw [hfind]
  have hnil : ids.filter (fun pid => !((memberIds db g.id).contains pid)) = [] :=
    List.filter_eq_nil_iff.mpr (fun pid hpid => by
      simp [hmem pid hpid])
  simp only [hnil, List.length_nil, Nat.lt_irrefl, if_false]

theorem filter_map_memberRows (gid i : Nat) (pids : List Nat) :
    ((memberRows gid i pids).filter (fun gp => gp.groupId == gid)).map
      (fun gp => gp.photoId) = pids := by
  rw [List.filter_eq_self.mpr
    (fun gp hgp => by simp [memberRows_groupId gid i pids gp hgp]),
    memberRows_map_photoId]

theorem filter_map_newRows (gid : Nat) (pids : List Nat) :
    (((pids.map (fun pid => (⟨gid, pid, false⟩ : GroupPhotoRow))).filter
      (fun gp => gp.groupId == gid)).map (fun gp => gp.photoId)) = pids := by
  rw [List.filter_map, List.map_map]
  show List.map (fun pid : Nat => pid) (List.filter (fun _ : Nat => gid == gid) pids) = pids
  simp

theorem memberIds_of_append (db' : DB) (l1 l2 : List GroupPhotoRow) (gid : Nat)
    (hgp : db'.groupPhotos = l1 ++ l2) :
    memberIds db' gid
      = (l1.filter (fun gp => gp.groupId == gid)).map (fun gp => gp.photoId)
        ++ (l2.filter (fun gp => gp.groupId == gid)).map (fun gp => gp.photoId) := by
  unfold memberIds
  rw [hgp, List.filter_append, List.map_append]

/-- After any `createDuplicateGroup` call, a group with the supplied hash
is findable, its id is the returned id, and every supplied photo id is
among the membership rows of the returned group id. -/
theorem createDuplicateGroup_post (db : DB) (h : String) (ids : List Nat) :
    ∃ g' : GroupRow,
      ((createDuplicateGroup db h ids).1).groups.find? (fun x => x.groupHash == h)
          = some g'
      ∧ g'.id = (createDuplicateGroup db h ids).2
      ∧ ∀ pid ∈ ids,
          pid ∈ memberIds (createDuplicateGroup db h ids).1
            (createDuplicateGroup db h ids).2 := by
  cases hfind : db.groups.find? (fun x => x.groupHash == h) with
  | none =>
    simp only [createDuplicateGroup, hfind]
    refine ⟨⟨db.nextGroupId, h, ids.length,
      liveSize (insertNewGroup db h ids) db.nextGroupId⟩, ?_, rfl, ?_⟩
    · simp only [updateGroupTotalSize]
      rw [find?_map_pred _ _ (fun a => by
        by_cases ha : (a.id == db.nextGroupId) = true <;> simp [ha])]
      rw [show (insertNewGroup db h ids).groups
        = db.groups ++ [⟨db.nextGroupId, h, ids.length, 0⟩] from rfl]
      rw [List.find?_append, hfind, Option.none_or]
      rw [List.find?_cons_of_pos _ (by simp)]
      simp
    · intro pid hpid
      have hgp : (updateGroupTotalSize (insertNewGroup db h ids)
            db.nextGroupId).groupPhotos
          = db.groupPhotos ++ memberRows db.nextGroupId 0 ids := rfl
      rw [memberIds_of_append _ _ _ _ hgp]
      exact List.mem_append_right _
        (by rw [filter_map_memberRows]; exact hpid)
  | some g =>
    by_cases hpos :
        0 < (ids.filter (fun pid => !((memberIds db g.id).contains pid))).length
    · simp only [createDuplicateGroup, hfind, if_pos hpos]
      refine ⟨⟨g.id, g.groupHash,
        g.photoCount
          + (ids.filter (fun pid => !((memberIds db g.id).contains pid))).length,
        liveSize (mergePersist db g.id g.photoCount
          (ids.filter (fun pid => !((memberIds db g.id).contains pid)))) g.id⟩,
        ?_, rfl, ?_⟩
      · simp only [updateGroupTotalSize, mergePersist, setGroupCount]
        rw [find?_map_pred _ _ (fun a => by
          by_cases ha : (a.id == g.id) = true <;> simp [ha])]
        rw [find?_map_pred _ _ (fun a => by
          by_cases ha : (a.id == g.id) = true <;> simp [ha])]
        rw [show (appendToGroup db g.id
            (ids.filter (fun pid => !((memberIds db g.id).contains pid)))).groups
          = db.groups from rfl]
        rw [hfind]
        simp [mergePersist, setGroupCount]
      · intro pid hpid
        have hgp : (updateGroupTotalSize (mergePersist db g.id g.photoCount
              (ids.filter (fun pid => !((memberIds db g.id).contains pid))))
              g.id).groupPhotos
            = db.groupPhotos
              ++ (ids.filter (fun pid => !((memberIds db g.id).contains pid))).map
                (fun pid => (⟨g.id, pid, false⟩ : GroupPhotoRow)) := rfl
        rw [memberIds_of_append _ _ _ _ hgp]
        by_cases hc : pid ∈ memberIds db g.id
        · exact List.mem_append_left _ hc
        · refine List.mem_append_right _ ?_
          rw [filter_map_newRows]
          exact List.mem_filter.mpr ⟨hpid, by simpa using hc⟩
    · simp only [createDuplicateGroup, hfind, if_neg hpos]
      refine ⟨g, rfl, rfl, ?_⟩
      intro pid hpid
      have hnil : ids.filter (fun pid => !((memberIds db g.id).contains pid)) = [] :=
        List.length_eq_zero.mp (Nat.eq_zero_of_not_pos hpos)
      have := List.filter_eq_nil_iff.mp hnil pid hpid
      simpa using this

/-- Claim C1 (confirmed): merging into an existing group is idempotent.
A second `createDuplicateGroup` call with the same hash and photo ids
appends no membership rows, leaves the stored member count and aggregate
size unchanged (the whole store is unchanged), and returns the id of the
existing group; hence a repeated `analyze` run over an unchanged photo
set re-derives the same group keys and leaves member counts unchanged. -/
theorem createDuplicateGroup_idempotent (db : DB) (h : String) (ids : List Nat) :
    (createDuplicateGroup (createDuplicateGroup db h ids).1 h ids).1.groupPhotos
        = (createDuplicateGroup db h ids).1.groupPhotos
    ∧ (createDuplicateGroup (createDuplicateGroup db h ids).1 h ids).1.groups
        = (createDuplicateGroup db h ids).1.groups
    ∧ (createDuplicateGroup (createDuplicateGroup db h ids).1 h ids).2
        = (createDuplicateGroup db h ids).2
    ∧ createDuplicateGroup (createDuplicateGroup db h ids).1 h ids
        = createDuplicateGroup db h ids := by
  obtain ⟨g', hfind, hid, hmem⟩ := createDuplicateGroup_post db h ids
  have hmem' : ∀ pid ∈ ids,
      pid ∈ memberIds (createDuplicateGroup db h ids).1 g'.id := by
    intro pid hpid
    rw [hid]
    exact hmem pid hpid
  have hall : createDuplicateGroup (createDuplicateGroup db h ids).1 h ids
      = createDuplicateGroup db h ids := by
    rw [createDuplicateGroup_skip _ h ids g' hfind hmem', hid]
  exact ⟨by rw [hall], by rw [hall], by rw [hall], hall⟩

theorem mem_insertSorted {α : Type} (le : α → α → Bool) (a b : α) (l : List α) :
    b ∈ insertSorted le a l ↔ b = a ∨ b ∈ l := by
  induction l with
  | nil => simp [insertSorted]
  | cons c cs ih =>
    by_cases h : le a c = true
    · simp [insertSorted, h, List.mem_cons]
    · simp only [insertSorted, if_neg h, List.mem_cons, ih]
      tauto

theorem mem_sortBy {α : Type} (le : α → α → Bool) (l : List α) (a : α) :
    a ∈ sortBy le l ↔ a ∈ l := by
  induction l with
  | nil => simp [sortBy]
  | cons c cs ih =>
    show a ∈ insertSorted le c (sortBy le cs) ↔ _
    rw [mem_insertSorted, ih]
    simp [List.mem_cons]

/-- Claim C8 (confirmed): `markGroupAsNotDuplicate` deletes exactly the
group row and its membership rows: every photo row (in particular every
duplicate flag) is unchanged, the other groups and memberships are
unchanged, and a subsequent `getDuplicateGroups` no longer includes the
group. -/
theorem markGroupAsNotDuplicate_frame (db : DB) (gid : Nat) :
    (markGroupAsNotDuplicate db gid).photos = db.photos
    ∧ (markGroupAsNotDuplicate db gid).groups
        = db.groups.filter (fun g => !(g.id == gid))
    ∧ (markGroupAsNotDuplicate db gid).groupPhotos
        = db.groupPhotos.filter (fun gp => !(gp.groupId == gid))
    ∧ ∀ r ∈ getDuplicateGroups (markGroupAsNotDuplicate db gid), r.id ≠ gid := by
  refine ⟨rfl, rfl, rfl, ?_⟩
  intro r hr
  unfold getDuplicateGroups at hr
  obtain ⟨g0, hg0, rfl⟩ := List.mem_map.mp hr
  have hg0m : g0 ∈ (markGroupAsNotDuplicate db gid).groups :=
    (mem_sortBy _ _ _).mp hg0
  have := List.of_mem_filter hg0m
  simpa using this

/-- Claim C9 (confirmed): `savePhoto` on an already-present
`localIdentifier` inserts no second row (the stored identifiers are
unchanged, so uniqueness is preserved), returns the existing photo's id,
and when a different non-empty hash is supplied it updates only that
row's stored hash. -/
theorem savePhoto_upsert (db : DB) (photo : PhotoInput)
    (hex : ∃ p ∈ db.photos, p.localIdentifier = photo.localIdentifier) :
    ((savePhoto db photo).1.photos.map (fun p => p.localIdentifier)
        = db.photos.map (fun p => p.localIdentifier))
    ∧ (savePhoto db photo).1.photos.length = db.photos.length
    ∧ ∃ p, db.photos.find?
          (fun q => q.localIdentifier == photo.localIdentifier) = some p
        ∧ (savePhoto db photo).2 = p.id
        ∧ ∀ hv, photo.hashValue = some hv → hv ≠ "" → some hv ≠ p.hashValue →
            (savePhoto db photo).1.photos = db.photos.map
              (fun q => if q.id == p.id then { q with hashValue := some hv } else q) := by
  obtain ⟨p0, hp0m, hp0e⟩ := hex
  have hsome : (db.photos.find?
      (fun q => q.localIdentifier == photo.localIdentifier)).isSome :=
    List.find?_isSome.mpr ⟨p0, hp0m, by simp [hp0e]⟩
  obtain ⟨p, hp⟩ := Option.isSome_iff_exists.mp hsome
  cases hhv : photo.hashValue with
  | none =>
    have hres : savePhoto db photo = (db, p.id) := by
      simp only [savePhoto, hp, hhv]
    rw [hres]
    refine ⟨rfl, rfl, p, hp, rfl, ?_⟩
    intro hv' hveq hne1 hne2
    exact Option.noConfusion hveq
  | some hv =>
    by_cases hcond : hv ≠ "" ∧ some hv ≠ p.hashValue
    · have hres : savePhoto db photo
          = ({ db with photos := db.photos.map fun q =>
              if q.id == p.id then { q with hashValue := some hv } else q },
             p.id) := by
        simp only [savePhoto, hp, hhv, if_pos hcond]
      rw [hres]
      have hlid : ((fun q : PhotoRow => q.localIdentifier) ∘ fun q =>
          if q.id == p.id then { q with hashValue := some hv } else q)
          = fun q : PhotoRow => q.localIdentifier := by
        funext q
        by_cases hq : q.id = p.id <;> simp [hq]
      refine ⟨?_, ?_, p, hp, rfl, ?_⟩
      · show (db.photos.map _).map _ = _
        rw [List.map_map, hlid]
      · show (db.photos.map _).length = _
        rw [List.length_map]
      · intro hv' hveq hne1 hne2
        injection hveq with h'
        subst h'
        rfl
    · have hres : savePhoto db photo = (db, p.id) := by
        simp only [savePhoto, hp, hhv, if_neg hcond]
      rw [hres]
      refine ⟨rfl, rfl, p, hp, rfl, ?_⟩
      intro hv' hveq hne1 hne2
      injection hveq with h'
      subst h'
      exact absurd ⟨hne1, hne2⟩ hcond

theorem length_filterMap_of_isSome {α β : Type} (f : α → Option β) (l : List α)
    (h : ∀ a ∈ l, (f a).isSome) : (l.filterMap f).length = l.length := by
  induction l with
  | nil => rfl
  | cons a as ih =>
    obtain ⟨b, hb⟩ := Option.isSome_iff_exists.mp (h a (List.mem_cons_self a as))
    rw [List.filterMap_cons, hb, List.length_cons,
      ih (fun x hx => h x (List.mem_cons_of_mem a hx))]
    rfl

theorem find?_id_markPhotosDeleted (photos : List PhotoRow) (pids : List Nat)
    (pid : Nat) :
    (markPhotosDeleted photos pids).find? (fun q => q.id == pid)
      = (photos.find? (fun q => q.id == pid)).map
          (fun p => if pids.contains p.id then { p with isDeleted := true } else p) := by
  unfold markPhotosDeleted
  apply find?_map_pred
  intro a
  cases hc : pids.contains a.id <;> simp [hc]

/-- Claim C10 (confirmed): `deleteDuplicatePhotos` is total — it returns a
result record for every input and every behavior of the device-deletion
and database-update steps.  When no requested photo is found it returns
failure with count 0 and one error; when the device deletion throws it
returns failure with count 0 and a non-empty error list; when the device
deletion succeeds, per-photo database-update failures are each
accumulated as one error without aborting the remaining updates (every
found photo whose update does not fail ends up marked deleted). -/
theorem deleteDuplicatePhotos_total (db : DB)
    (dev : List String → Except String Nat) (fails : Nat → Bool)
    (gid : Nat) (ids : List Nat) :
    ((∀ pid ∈ ids, getPhoto db pid = none) →
      deleteDuplicatePhotos db dev fails gid ids
        = (db, ⟨false, 0, [("No photos found to delete")]⟩))
    ∧ (∀ msg, dev ((ids.filterMap (fun pid => getPhoto db pid)).map
          (fun p => p.localIdentifier)) = Except.error msg →
        (ids.filterMap (fun pid => getPhoto db pid)).length ≠ 0 →
        (deleteDuplicatePhotos db dev fails gid ids).2.success = false
        ∧ (deleteDuplicatePhotos db dev fails gid ids).2.deletedCount = 0
        ∧ (deleteDuplicatePhotos db dev fails gid ids).2.errors ≠ [])
    ∧ (∀ n, dev ((ids.filterMap (fun pid => getPhoto db pid)).map
          (fun p => p.localIdentifier)) = Except.ok n →
        (ids.filterMap (fun pid => getPhoto db pid)).length ≠ 0 →
        (deleteDuplicatePhotos db dev fails gid ids).2.deletedCount = n
        ∧ (deleteDuplicatePhotos db dev fails gid ids).2.errors.length
            = (ids.filter (fun pid => (getPhoto db pid).isNone)).length
              + ((ids.filterMap (fun pid => getPhoto db pid)).filter
                  (fun p => fails p.id)).length
        ∧ ∀ p ∈ ids.filterMap (fun pid => getPhoto db pid), fails p.id = false →
            ∃ q, getPhoto (deleteDuplicatePhotos db dev fails gid ids).1 p.id
                = some q ∧ q.isDeleted = true) := by
  refine ⟨?_, ?_, ?_⟩
  · intro hnone
    have hnil : ids.filterMap (fun pid => getPhoto db pid) = [] :=
      List.filterMap_eq_nil_iff.mpr hnone
    simp only [deleteDuplicatePhotos, hnil, List.length_nil]
    rfl
  · intro msg hdev hne
    have hres : deleteDuplicatePhotos db dev fails gid ids
        = (db, ⟨false, 0,
            (ids.filter (fun pid => (getPhoto db pid).isNone)).map
                (fun pid => ("Photo not found: ") ++ toString pid)
              ++ [msg]⟩) := by
      simp only [deleteDuplicatePhotos, if_neg hne, hdev]
    rw [hres]
    exact ⟨rfl, rfl, by simp⟩
  · intro n hdev hne
    have hres : deleteDuplicatePhotos db dev fails gid ids
        = ({ db with photos := (markPhotosDeleted db.photos
              (((ids.filterMap (fun pid => getPhoto db pid)).filter
                (fun p => !(fails p.id))).map (fun p => p.id))) },
           ⟨decide (0 < n), n,
            (ids.filter (fun pid => (getPhoto db pid).isNone)).map
                (fun pid => ("Photo not found: ") ++ toString pid)
              ++ ((ids.filterMap (fun pid => getPhoto db pid)).filter
                  (fun p => fails p.id)).map
                (fun p => ("Failed to update database for photo ") ++ p.fileName)⟩) := by
      simp only [deleteDuplicatePhotos, if_neg hne, hdev]
    rw [hres]
    refine ⟨rfl, by rw [List.length_append, List.length_map, List.length_map], ?_⟩
    intro p hp hfail
    have hpid : db.photos.find? (fun q => q.id == p.id) = some p := by
      obtain ⟨pid, _, hget⟩ := List.mem_filterMap.mp hp
      have hid : p.id = pid := by
        have := List.find?_some hget
        simpa using this
      rw [hid]
      exact hget
    have hmem : p.id ∈ (((ids.filterMap (fun pid => getPhoto db pid)).filter
        (fun q => !(fails q.id))).map (fun q => q.id)) :=
      List.mem_map.mpr ⟨p, List.mem_filter.mpr ⟨hp, by simp [hfail]⟩, rfl⟩
    refine ⟨{ p with isDeleted := true }, ?_, rfl⟩
    show (markPhotosDeleted db.photos _).find? (fun q => q.id == p.id) = _
    rw [find?_id_markPhotosDeleted, hpid, Option.map_some']
    rw [if_pos (by simpa using hmem)]

/-- Witness for C9 at a concrete input: re-saving the only stored photo
under its existing identifier keeps exactly one stored identifier. -/
theorem savePhoto_upsert_witness :
    (savePhoto
        ⟨[⟨1, "lidA", "pp", "ff", 100, 10, 10, "cd", "md", some "old", 0, false, false⟩],
         [], [], 2, 1⟩
        ⟨"lidA", "pp", "ff", 100, 10, 10, "cd", "md", some "new", none, false, false⟩).1.photos.map
      (fun p => p.localIdentifier) = ["lidA"] := by
  have h := savePhoto_upsert
      ⟨[⟨1, "lidA", "pp", "ff", 100, 10, 10, "cd", "md", some "old", 0, false, false⟩],
       [], [], 2, 1⟩
      ⟨"lidA", "pp", "ff", 100, 10, 10, "cd", "md", some "new", none, false, false⟩
      ⟨⟨1, "lidA", "pp", "ff", 100, 10, 10, "cd", "md", some "old", 0, false, false⟩,
       by decide, rfl⟩
  rw [h.1]
  rfl

/-- Witness for C10 at a concrete input: of the requested ids, one is
missing, one photo's database update fails, one succeeds; the call
reports the device count, accumulates both errors, and still marks the
photo with the succeeding update as deleted. -/
theorem deleteDuplicatePhotos_total_witness :
    (deleteDuplicatePhotos
        ⟨[⟨1, "a", "p", "f1", 100, 1, 1, "c", "m", none, 0, false, false⟩,
          ⟨2, "b", "p", "f2", 200, 1, 1, "c", "m", none, 0, false, false⟩],
         [], [], 3, 1⟩
        (fun _ => Except.ok 2) (fun i => i == 1) 1 [1, 2, 7]).2.deletedCount = 2
    ∧ (deleteDuplicatePhotos
        ⟨[⟨1, "a", "p", "f1", 100, 1, 1, "c", "m", none, 0, false, false⟩,
          ⟨2, "b", "p", "f2", 200, 1, 1, "c", "m", none, 0, false, false⟩],
         [], [], 3, 1⟩
        (fun _ => Except.ok 2) (fun i => i == 1) 1 [1, 2, 7]).2.errors.length = 2 := by
  have h := (deleteDuplicatePhotos_total
      ⟨[⟨1, "a", "p", "f1", 100, 1, 1, "c", "m", none, 0, false, false⟩,
        ⟨2, "b", "p", "f2", 200, 1, 1, "c", "m", none, 0, false, false⟩],
       [], [], 3, 1⟩
      (fun _ => Except.ok 2) (fun i => i == 1) 1 [1, 2, 7]).2.2 2 rfl (by decide)
  refine ⟨h.1, ?_⟩
  rw [h.2.1]
  decide

theorem find?_id_markPhotosDuplicate (photos : List PhotoRow) (pids : List Nat)
    (pid : Nat) :
    (markPhotosDuplicate photos pids).find? (fun q => q.id == pid)
      = (photos.find? (fun q => q.id == pid)).map
          (fun p => if pids.contains p.id then { p with isDuplicate := true } else p) := by
  unfold markPhotosDuplicate
  apply find?_map_pred
  intro a
  cases hc : pids.contains a.id <;> simp [hc]

theorem memberRows_length (gid i : Nat) (pids : List Nat) :
    (memberRows gid i pids).length = pids.length := by
  induction pids generalizing i with
  | nil => rfl
  | cons a as ih => simp [memberRows, ih]

/-- Create path of the consistency argument: when `createDuplicateGroup`
creates a new group — no group with the hash exists, the new rowid is
fresh, and every supplied photo id refers to a stored live photo — the
new group's stored member count equals its live member count and its
stored aggregate size equals the sum of its live members' sizes (the
store recomputes `total_size` inside the operation). -/
theorem createDuplicateGroup_new_group_consistent (db : DB) (h : String)
    (ids : List Nat)
    (hfind : db.groups.find? (fun g => g.groupHash == h) = none)
    (hfresh : ∀ gp ∈ db.groupPhotos, gp.groupId ≠ db.nextGroupId)
    (hlive : ∀ pid ∈ ids, ∃ p, getPhoto db pid = some p ∧ p.isDeleted = false) :
    ∃ g' ∈ (createDuplicateGroup db h ids).1.groups,
      g'.id = (createDuplicateGroup db h ids).2
      ∧ g'.photoCount
          = (liveMembers (createDuplicateGroup db h ids).1 g'.id).length
      ∧ g'.totalSize = liveSize (createDuplicateGroup db h ids).1 g'.id := by
  simp only [createDuplicateGroup, hfind]
  refine ⟨⟨db.nextGroupId, h, ids.length,
      liveSize (insertNewGroup db h ids) db.nextGroupId⟩, ?_, rfl, ?_, rfl⟩
  · show _ ∈ (insertNewGroup db h ids).groups.map _
    refine List.mem_map.mpr ⟨⟨db.nextGroupId, h, ids.length, 0⟩, ?_, by simp⟩
    exact List.mem_append_right _ (List.mem_singleton.mpr rfl)
  · show ids.length = (liveMembers (insertNewGroup db h ids) db.nextGroupId).length
    unfold liveMembers
    rw [show (insertNewGroup db h ids).groupPhotos
      = db.groupPhotos ++ memberRows db.nextGroupId 0 ids from rfl]
    rw [List.filter_append,
      List.filter_eq_nil_iff.mpr (fun gp hgp => by simp [hfresh gp hgp]),
      List.filter_eq_self.mpr (fun gp hgp => by
        simp [memberRows_groupId _ _ _ gp hgp]),
      List.nil_append]
    refine (Eq.trans (length_filterMap_of_isSome _ _ ?_)
      (memberRows_length _ _ _)).symm
    intro gp hgp
    have hpid : gp.photoId ∈ ids := by
      have := List.mem_map_of_mem (fun x : GroupPhotoRow => x.photoId) hgp
      rwa [memberRows_map_photoId] at this
    obtain ⟨p, hp, hdel⟩ := hlive gp.photoId hpid
    have hfindp : (insertNewGroup db h ids).photos.find?
        (fun q => q.id == gp.photoId)
        = some (if ids.contains p.id then { p with isDuplicate := true } else p) := by
      show (markPhotosDuplicate db.photos ids).find? _ = _
      rw [find?_id_markPhotosDuplicate]
      rw [show db.photos.find? (fun q => q.id == gp.photoId) = some p from hp]
      rfl
    by_cases hc : p.id ∈ ids <;> simp [hfindp, hc, hdel]

/-- Counterexample to claim C5: a freshly created two-member group is
consistent, but deleting one member through `deleteDuplicatePhotos`
(which never recomputes `photo_count` or `total_size`) leaves a group
whose stored member count (2) and aggregate size (300) no longer match
its live membership (1 member of size 100). -/
theorem consistency_broken_by_deletion :
    dbConsistent (createDuplicateGroup
      ⟨[⟨1, "a", "p", "f1", 100, 1, 1, "c", "m", none, 0, false, false⟩,
        ⟨2, "b", "p", "f2", 200, 1, 1, "c", "m", none, 0, false, false⟩],
       [], [], 3, 1⟩ ("gh") [1, 2]).1 = true
    ∧ dbConsistent (deleteDuplicatePhotos
        (createDuplicateGroup
          ⟨[⟨1, "a", "p", "f1", 100, 1, 1, "c", "m", none, 0, false, false⟩,
            ⟨2, "b", "p", "f2", 200, 1, 1, "c", "m", none, 0, false, false⟩],
           [], [], 3, 1⟩ ("gh") [1, 2]).1
        (fun _ => Except.ok 1) (fun _ => false) 1 [2]).1 = false := by
  decide

theorem step_le_left (p c : Photo) :
    p.fileSize ≤ (if p.fileSize < c.fileSize then c else p).fileSize := by
  by_cases hpc : p.fileSize < c.fileSize
  · rw [if_pos hpc]
    omega
  · rw [if_neg hpc]

theorem step_le_right (p c : Photo) :
    c.fileSize ≤ (if p.fileSize < c.fileSize then c else p).fileSize := by
  by_cases hpc : p.fileSize < c.fileSize
  · rw [if_pos hpc]
  · rw [if_neg hpc]
    omega

/-- The reduce-selected photo bounds every member's size from above. -/
theorem largestOf_le (p : Photo) (rest : List Photo) :
    ∀ q ∈ p :: rest, q.fileSize ≤ (largestOf p rest).fileSize := by
  induction rest generalizing p with
  | nil =>
    intro q hq
    rcases List.mem_cons.mp hq with rfl | h
    · exact Nat.le_refl _
    · cases h
  | cons c cs ih =>
    intro q hq
    have hstep : largestOf p (c :: cs)
        = largestOf (if p.fileSize < c.fileSize then c else p) cs := rfl
    rw [hstep]
    rcases List.mem_cons.mp hq with rfl | hq'
    · exact le_trans (step_le_left q c)
        (ih _ _ (List.mem_cons_self _ _))
    rcases List.mem_cons.mp hq' with rfl | hq''
    · exact le_trans (step_le_right p q)
        (ih _ _ (List.mem_cons_self _ _))
    · exact ih _ q (List.mem_cons_of_mem _ hq'')

/-- The reduce-selected photo is the first member attaining the maximal
size (the strict `>` comparison keeps the earlier photo on ties). -/
theorem largestOf_first (p : Photo) (rest : List Photo) :
    ∃ pre post, p :: rest = pre ++ (largestOf p rest) :: post
      ∧ ∀ q ∈ pre, q.fileSize < (largestOf p rest).fileSize := by
  induction rest generalizing p with
  | nil => exact ⟨[], [], rfl, fun q hq => absurd hq (List.not_mem_nil q)⟩
  | cons c cs ih =>
    rw [show largestOf p (c :: cs)
      = largestOf (if p.fileSize < c.fileSize then c else p) cs from rfl]
    by_cases hpc : p.fileSize < c.fileSize
    · rw [if_pos hpc]
      obtain ⟨pre', post', hdec, hlt⟩ := ih c
      cases pre' with
      | nil =>
        rw [List.nil_append] at hdec
        have h1 : c = largestOf c cs := (List.cons.injEq _ _ _ _ ▸ hdec).1
        have h2 : cs = post' := (List.cons.injEq _ _ _ _ ▸ hdec).2
        refine ⟨[p], post', ?_, ?_⟩
        · rw [List.cons_append, List.nil_append, ← h1, ← h2]
        · intro q hq
          rcases List.mem_cons.mp hq with rfl | h
          · rw [← h1]
            exact hpc
          · cases h
      | cons a pre'' =>
        rw [List.cons_append] at hdec
        have h1 : c = a := (List.cons.injEq _ _ _ _ ▸ hdec).1
        have h2 : cs = pre'' ++ largestOf c cs :: post' :=
          (List.cons.injEq _ _ _ _ ▸ hdec).2
        have hcL : c.fileSize < (largestOf c cs).fileSize := by
          have := hlt a (List.mem_cons_self _ _)
          rwa [← h1] at this
        refine ⟨p :: c :: pre'', post', ?_, ?_⟩
        · rw [List.cons_append, List.cons_append, ← h2]
        · intro q hq
          rcases List.mem_cons.mp hq with rfl | hq'
          · exact lt_trans hpc hcL
          rcases List.mem_cons.mp hq' with rfl | hq''
          · exact hcL
          · exact hlt q (List.mem_cons_of_mem _ hq'')
    · rw [if_neg hpc]
      obtain ⟨pre', post', hdec, hlt⟩ := ih p
      cases pre' with
      | nil =>
        rw [List.nil_append] at hdec
        have h1 : p = largestOf p cs := (List.cons.injEq _ _ _ _ ▸ hdec).1
        refine ⟨[], c :: cs, ?_, fun q hq => absurd hq (List.not_mem_nil q)⟩
        rw [List.nil_append, ← h1]
      | cons a pre'' =>
        rw [List.cons_append] at hdec
        have h1 : p = a := (List.cons.injEq _ _ _ _ ▸ hdec).1
        have h2 : cs = pre'' ++ largestOf p cs :: post' :=
          (List.cons.injEq _ _ _ _ ▸ hdec).2
        have hpL : p.fileSize < (largestOf p cs).fileSize := by
          have := hlt a (List.mem_cons_self _ _)
          rwa [← h1] at this
        refine ⟨p :: c :: pre'', post', ?_, ?_⟩
        · rw [List.cons_append, List.cons_append, ← h2]
        · intro q hq
          rcases List.mem_cons.mp hq with rfl | hq'
          · exact hpL
          rcases List.mem_cons.mp hq' with rfl | hq''
          · exact lt_of_le_of_lt (Nat.le_of_not_lt hpc) hpL
          · exact hlt q (List.mem_cons_of_mem _ hq'')

theorem cacheFind_localIdentifier {cache : List PhotoRow} {lid : String}
    {m : PhotoRow} (h : cacheFind cache lid = some m) :
    m.localIdentifier = lid := by
  have := List.find?_some h
  simpa using this

theorem map_lid_filterMap_cacheFind (cache : List PhotoRow) (l : List Photo)
    (h : ∀ q ∈ l, (cacheFind cache q.localIdentifier).isSome) :
    ((l.filterMap (fun q => cacheFind cache q.localIdentifier)).map
        (fun m => m.localIdentifier))
      = l.map (fun q => q.localIdentifier) := by
  induction l with
  | nil => rfl
  | cons q l ih =>
    obtain ⟨m, hm⟩ := Option.isSome_iff_exists.mp (h q (List.mem_cons_self q l))
    rw [List.filterMap_cons, hm, List.map_cons, List.map_cons,
      cacheFind_localIdentifier hm,
      ih (fun x hx => h x (List.mem_cons_of_mem q hx))]

theorem find?_eq_of_nodup_key {α κ : Type} [BEq κ] [LawfulBEq κ] (key : α → κ)
    (l : List α) (a : α) (ha : a ∈ l) (hnd : (l.map key).Nodup) :
    l.find? (fun x => key x == key a) = some a := by
  induction l with
  | nil => cases ha
  | cons b bs ih =>
    rcases List.mem_cons.mp ha with rfl | ha'
    · rw [List.find?_cons_of_pos _ (by simp)]
    · have hnd' := List.nodup_cons.mp (List.map_cons key b bs ▸ hnd)
      have hkb : key b ≠ key a := by
        intro he
        exact absurd (he ▸ List.mem_map_of_mem key ha') hnd'.1
      rw [List.find?_cons_of_neg _ (by simp [hkb])]
      exact ih ha' hnd'.2

/-- For a duplicate set of at least two photos whose members all have
cached metadata of matching byte size, with distinct library identifiers
and distinct metadata ids, `mkGroup` produces a group: its
`recommendedKeepId` is the metadata id of the reduce-selected largest
photo, its `totalSize` is the set's total byte size, its `photos` are the
cached metadata, and the per-group space saving equals `totalSize` minus
the recommended-keep member's size. -/
theorem mkGroup_some (cache : List PhotoRow) (db : DB) (p : Photo)
    (rest : List Photo)
    (H1 : ∀ q ∈ p :: rest, ∃ m, cacheFind cache q.localIdentifier = some m
      ∧ m.fileSize = q.fileSize)
    (H2 : ((p :: rest).map (fun q => q.localIdentifier)).Nodup)
    (H3 : (((p :: rest).filterMap
      (fun q => cacheFind cache q.localIdentifier)).map (fun m => m.id)).Nodup)
    (hlen2 : 2 ≤ (p :: rest).length) :
    ∃ r, (mkGroup cache db (p :: rest)).2 = some r
      ∧ (∃ mL, cacheFind cache (largestOf p rest).localIdentifier = some mL
          ∧ mL.fileSize = (largestOf p rest).fileSize
          ∧ r.1.recommendedKeepId = some mL.id
          ∧ sizeOfRecommendedKeep r.1 = mL.fileSize)
      ∧ r.1.totalSize = ((p :: rest).map (fun q => q.fileSize)).sum
      ∧ r.2 = r.1.totalSize - (largestOf p rest).fileSize
      ∧ r.1.photos = (p :: rest).filterMap
          (fun q => cacheFind cache q.localIdentifier) := by
  have hsome : ∀ q ∈ p :: rest, (cacheFind cache q.localIdentifier).isSome := by
    intro q hq
    obtain ⟨m, hm, _⟩ := H1 q hq
    rw [hm]
    rfl
  have hlenM : ((p :: rest).filterMap
      (fun q => cacheFind cache q.localIdentifier)).length = (p :: rest).length :=
    length_filterMap_of_isSome _ _ hsome
  have hgt : 1 < ((p :: rest).filterMap
      (fun q => cacheFind cache q.localIdentifier)).length := by
    rw [hlenM]
    exact lt_of_lt_of_le Nat.one_lt_two hlen2
  obtain ⟨pre, post, hdec, _⟩ := largestOf_first p rest
  have hLmem : largestOf p rest ∈ p :: rest := by
    rw [hdec]
    exact List.mem_append_right _ (List.mem_cons_self _ _)
  obtain ⟨mL, hmL, hmLsize⟩ := H1 _ hLmem
  have hmLmem : mL ∈ (p :: rest).filterMap
      (fun q => cacheFind cache q.localIdentifier) :=
    List.mem_filterMap.mpr ⟨_, hLmem, hmL⟩
  have hndlid : (((p :: rest).filterMap
      (fun q => cacheFind cache q.localIdentifier)).map
        (fun m => m.localIdentifier)).Nodup := by
    rw [map_lid_filterMap_cacheFind _ _ hsome]
    exact H2
  have hfindlid : ((p :: rest).filterMap
      (fun q => cacheFind cache q.localIdentifier)).find?
        (fun m => m.localIdentifier == (largestOf p rest).localIdentifier)
      = some mL := by
    rw [show (largestOf p rest).localIdentifier = mL.localIdentifier from
      (cacheFind_localIdentifier hmL).symm]
    exact find?_eq_of_nodup_key _ _ _ hmLmem hndlid
  have hfindid : ((p :: rest).filterMap
      (fun q => cacheFind cache q.localIdentifier)).find?
        (fun m => m.id == mL.id) = some mL :=
    find?_eq_of_nodup_key _ _ _ hmLmem H3
  simp only [mkGroup]
  rw [if_pos hgt]
  refine ⟨_, rfl, ⟨mL, hmL, hmLsize, ?_, ?_⟩, rfl, rfl, rfl⟩
  · show some (((((p :: rest).filterMap
        (fun q => cacheFind cache q.localIdentifier)).find?
          (fun m => m.localIdentifier == (largestOf p rest).localIdentifier)).map
        (fun m => m.id)).getD _) = some mL.id
    rw [hfindlid]
    rfl
  · simp only [sizeOfRecommendedKeep]
    rw [hfindlid]
    simp only [Option.map_some', Option.getD_some]
    rw [show (fun m : PhotoRow => some m.id == some mL.id)
      = (fun m : PhotoRow => m.id == mL.id) from rfl]
    rw [hfindid]
    rfl

/-- Claim C6 (confirmed): the `totalSpaceSaved` accumulated by the
group-creation loop equals the sum, over the returned groups, of the
group's totalSize minus the byte size of the member its
`recommendedKeepId` identifies — provided every member of every
confirmed duplicate set has cached metadata with the same byte size, and
identifiers and metadata ids are duplicate-free within each set. -/
theorem buildGroups_spaceSaved (cache : List PhotoRow) (db : DB)
    (sets : List (List Photo))
    (H : ∀ s ∈ sets, 2 ≤ s.length
      ∧ (∀ q ∈ s, ∃ m, cacheFind cache q.localIdentifier = some m
          ∧ m.fileSize = q.fileSize)
      ∧ (s.map (fun q => q.localIdentifier)).Nodup
      ∧ ((s.filterMap (fun q => cacheFind cache q.localIdentifier)).map
          (fun m => m.id)).Nodup) :
    (buildGroups cache db sets).2.2
      = (((buildGroups cache db sets).2.1).map
          (fun g => g.totalSize - sizeOfRecommendedKeep g)).sum := by
  induction sets generalizing db with
  | nil => rfl
  | cons s ss ih =>
    obtain ⟨hle, H1s, H2s, H3s⟩ := H s (List.mem_cons_self _ _)
    cases s with
    | nil => exact absurd hle (by simp)
    | cons p rest =>
      obtain ⟨r, hr2, ⟨mL, _, hmLsize, _, hkeepsize⟩, _, hsaved, _⟩ :=
        mkGroup_some cache db p rest H1s H2s H3s hle
      obtain ⟨g, saved⟩ := r
      have hsaved' : saved = g.totalSize - sizeOfRecommendedKeep g := by
        have h1 : saved = g.totalSize - (largestOf p rest).fileSize := hsaved
        have h2 : sizeOfRecommendedKeep g = mL.fileSize := hkeepsize
        rw [h1, h2, hmLsize]
      have hpair : mkGroup cache db (p :: rest)
          = ((mkGroup cache db (p :: rest)).1, some (g, saved)) := by
        have he := Prod.mk.eta (p := mkGroup cache db (p :: rest))
        rw [hr2] at he
        exact he.symm
      simp only [buildGroups]
      rw [hpair]
      show saved + (buildGroups cache (mkGroup cache db (p :: rest)).1 ss).2.2
          = (List.map (fun g => g.totalSize - sizeOfRecommendedKeep g)
              (g :: (buildGroups cache (mkGroup cache db (p :: rest)).1 ss).2.1)).sum
      rw [List.map_cons, List.sum_cons,
        ih _ (fun s hs => H s (List.mem_cons_of_mem _ hs)), hsaved']

theorem memberRows_not_keep (gid : Nat) (pids : List Nat) :
    ∀ i : Nat, i ≠ 0 →
      (memberRows gid i pids).filter (fun gp => gp.isRecommendedKeep) = [] := by
  induction pids with
  | nil => intro i _; rfl
  | cons a as ih =>
    intro i hi
    show List.filter _ (⟨gid, a, i == 0⟩ :: memberRows gid (i + 1) as) = []
    rw [List.filter_cons_of_neg (by simp [hi]), ih (i + 1) (Nat.succ_ne_zero i)]

/-- Claim C4 amended (proved): in a returned group, `recommendedKeepId`
identifies the cache metadata of the reduce-selected photo, which has
byte size at least every member's size and is the first member attaining
that size; the store, however, flags the FIRST supplied photo id of a
freshly created group as recommended-keep, regardless of size. -/
theorem mkGroup_keep_recommendation (cache : List PhotoRow) (db : DB)
    (p : Photo) (rest : List Photo)
    (H1 : ∀ q ∈ p :: rest, ∃ m, cacheFind cache q.localIdentifier = some m
      ∧ m.fileSize = q.fileSize)
    (H2 : ((p :: rest).map (fun q => q.localIdentifier)).Nodup)
    (H3 : (((p :: rest).filterMap
      (fun q => cacheFind cache q.localIdentifier)).map (fun m => m.id)).Nodup)
    (hlen2 : 2 ≤ (p :: rest).length) :
    (∃ r, (mkGroup cache db (p :: rest)).2 = some r
      ∧ ∃ mL, cacheFind cache (largestOf p rest).localIdentifier = some mL
          ∧ r.1.recommendedKeepId = some mL.id
          ∧ mL.fileSize = (largestOf p rest).fileSize
          ∧ (∀ q ∈ p :: rest, q.fileSize ≤ (largestOf p rest).fileSize)
          ∧ ∃ pre post, p :: rest = pre ++ (largestOf p rest) :: post
              ∧ ∀ q ∈ pre, q.fileSize < (largestOf p rest).fileSize)
    ∧ (∀ (db2 : DB) (h2 : String) (pid0 : Nat) (rest2 : List Nat),
        db2.groups.find? (fun g => g.groupHash == h2) = none →
        (((createDuplicateGroup db2 h2 (pid0 :: rest2)).1.groupPhotos.filter
            (fun gp => gp.isRecommendedKeep)).map (fun gp => gp.photoId))
          = ((db2.groupPhotos.filter (fun gp => gp.isRecommendedKeep)).map
              (fun gp => gp.photoId)) ++ [pid0]) := by
  constructor
  · obtain ⟨r, hr2, ⟨mL, hmL, hmLsize, hkeep, _⟩, _, _, _⟩ :=
      mkGroup_some cache db p rest H1 H2 H3 hlen2
    exact ⟨r, hr2, mL, hmL, hkeep, hmLsize, largestOf_le p rest,
      largestOf_first p rest⟩
  · intro db2 h2 pid0 rest2 hfind
    simp only [createDuplicateGroup, hfind]
    rw [show (updateGroupTotalSize
        (insertNewGroup db2 h2 (pid0 :: rest2)) db2.nextGroupId).groupPhotos
      = db2.groupPhotos ++ memberRows db2.nextGroupId 0 (pid0 :: rest2) from rfl]
    rw [List.filter_append, List.map_append]
    rw [show memberRows db2.nextGroupId 0 (pid0 :: rest2)
      = ⟨db2.nextGroupId, pid0, true⟩ :: memberRows db2.nextGroupId 1 rest2 from rfl]
    rw [List.filter_cons_of_pos (by rfl),
      memberRows_not_keep db2.nextGroupId rest2 1 (Nat.one_ne_zero)]
    rfl

set_option maxRecDepth 8192 in
/-- Counterexample to claim C4: for the two-photo set (sizes 100 then
200), the store flags photo id 1 (size 100) as recommended-keep — the
first member, not the largest — while member id 2 has size 200; the
returned `recommendedKeepId` (metadata id 2) does pick the largest. -/
theorem store_keep_not_largest :
    (((mkGroup
        [⟨1, "a", "p", "f1", 100, 1, 1, "c", "m", some "h1", 0, false, false⟩,
         ⟨2, "b", "p", "f2", 200, 1, 1, "c", "m", some "h1", 0, false, false⟩]
        ⟨[⟨1, "a", "p", "f1", 100, 1, 1, "c", "m", some "h1", 0, false, false⟩,
          ⟨2, "b", "p", "f2", 200, 1, 1, "c", "m", some "h1", 0, false, false⟩],
         [], [], 3, 1⟩
        [⟨"1", "a", "u", "f1", 100, 1, 1⟩,
         ⟨"2", "b", "u", "f2", 200, 1, 1⟩]).1.groupPhotos.filter
        (fun gp => gp.isRecommendedKeep)).map (fun gp => gp.photoId)) = [1]
    ∧ ((mkGroup
        [⟨1, "a", "p", "f1", 100, 1, 1, "c", "m", some "h1", 0, false, false⟩,
         ⟨2, "b", "p", "f2", 200, 1, 1, "c", "m", some "h1", 0, false, false⟩]
        ⟨[⟨1, "a", "p", "f1", 100, 1, 1, "c", "m", some "h1", 0, false, false⟩,
          ⟨2, "b", "p", "f2", 200, 1, 1, "c", "m", some "h1", 0, false, false⟩],
         [], [], 3, 1⟩
        [⟨"1", "a", "u", "f1", 100, 1, 1⟩,
         ⟨"2", "b", "u", "f2", 200, 1, 1⟩]).1.groupPhotos.map
        (fun gp => gp.photoId)) = [1, 2]
    ∧ (getPhoto (mkGroup
        [⟨1, "a", "p", "f1", 100, 1, 1, "c", "m", some "h1", 0, false, false⟩,
         ⟨2, "b", "p", "f2", 200, 1, 1, "c", "m", some "h1", 0, false, false⟩]
        ⟨[⟨1, "a", "p", "f1", 100, 1, 1, "c", "m", some "h1", 0, false, false⟩,
          ⟨2, "b", "p", "f2", 200, 1, 1, "c", "m", some "h1", 0, false, false⟩],
         [], [], 3, 1⟩
        [⟨"1", "a", "u", "f1", 100, 1, 1⟩,
         ⟨"2", "b", "u", "f2", 200, 1, 1⟩]).1 1).map (fun q => q.fileSize)
      = some 100
    ∧ (getPhoto (mkGroup
        [⟨1, "a", "p", "f1", 100, 1, 1, "c", "m", some "h1", 0, false, false⟩,
         ⟨2, "b", "p", "f2", 200, 1, 1, "c", "m", some "h1", 0, false, false⟩]
        ⟨[⟨1, "a", "p", "f1", 100, 1, 1, "c", "m", some "h1", 0, false, false⟩,
          ⟨2, "b", "p", "f2", 200, 1, 1, "c", "m", some "h1", 0, false, false⟩],
         [], [], 3, 1⟩
        [⟨"1", "a", "u", "f1", 100, 1, 1⟩,
         ⟨"2", "b", "u", "f2", 200, 1, 1⟩]).1 2).map (fun q => q.fileSize)
      = some 200
    ∧ ((mkGroup
        [⟨1, "a", "p", "f1", 100, 1, 1, "c", "m", some "h1", 0, false, false⟩,
         ⟨2, "b", "p", "f2", 200, 1, 1, "c", "m", some "h1", 0, false, false⟩]
        ⟨[⟨1, "a", "p", "f1", 100, 1, 1, "c", "m", some "h1", 0, false, false⟩,
          ⟨2, "b", "p", "f2", 200, 1, 1, "c", "m", some "h1", 0, false, false⟩],
         [], [], 3, 1⟩
        [⟨"1", "a", "u", "f1", 100, 1, 1⟩,
         ⟨"2", "b", "u", "f2", 200, 1, 1⟩]).2.map
        (fun r => r.1.recommendedKeepId)) = some (some 2) := by
  decide

set_option maxRecDepth 8192 in
/-- Witness for the amended C4 theorem at a concrete input: the returned
`recommendedKeepId` is metadata id 2, the larger member. -/
theorem mkGroup_keep_recommendation_witness :
    ((mkGroup
        [⟨1, "a", "p", "f1", 100, 1, 1, "c", "m", some "h1", 0, false, false⟩,
         ⟨2, "b", "p", "f2", 200, 1, 1, "c", "m", some "h1", 0, false, false⟩]
        ⟨[⟨1, "a", "p", "f1", 100, 1, 1, "c", "m", some "h1", 0, false, false⟩,
          ⟨2, "b", "p", "f2", 200, 1, 1, "c", "m", some "h1", 0, false, false⟩],
         [], [], 3, 1⟩
        [⟨"1", "a", "u", "f1", 100, 1, 1⟩,
         ⟨"2", "b", "u", "f2", 200, 1, 1⟩]).2.map
        (fun r => r.1.recommendedKeepId)) = some (some 2) := by
  obtain ⟨⟨r, hr2, mL, hmL, hkeep, _⟩, _⟩ :=
    mkGroup_keep_recommendation
      [⟨1, "a", "p", "f1", 100, 1, 1, "c", "m", some "h1", 0, false, false⟩,
       ⟨2, "b", "p", "f2", 200, 1, 1, "c", "m", some "h1", 0, false, false⟩]
      ⟨[⟨1, "a", "p", "f1", 100, 1, 1, "c", "m", some "h1", 0, false, false⟩,
        ⟨2, "b", "p", "f2", 200, 1, 1, "c", "m", some "h1", 0, false, false⟩],
       [], [], 3, 1⟩
      ⟨"1", "a", "u", "f1", 100, 1, 1⟩ [⟨"2", "b", "u", "f2", 200, 1, 1⟩]
      (by
        intro q hq
        simp only [List.mem_cons, List.not_mem_nil, or_false] at hq
        rcases hq with rfl | rfl
        · exact ⟨⟨1, "a", "p", "f1", 100, 1, 1, "c", "m", some "h1", 0,
            false, false⟩, rfl, rfl⟩
        · exact ⟨⟨2, "b", "p", "f2", 200, 1, 1, "c", "m", some "h1", 0,
            false, false⟩, rfl, rfl⟩)
      (by decide) (by decide) (by decide)
  have hmL2 : mL = ⟨2, "b", "p", "f2", 200, 1, 1, "c", "m", some "h1", 0,
      false, false⟩ := by
    have h2 := hmL
    rw [show cacheFind
        [⟨1, "a", "p", "f1", 100, 1, 1, "c", "m", some "h1", 0, false, false⟩,
         ⟨2, "b", "p", "f2", 200, 1, 1, "c", "m", some "h1", 0, false, false⟩]
        (largestOf (⟨"1", "a", "u", "f1", 100, 1, 1⟩ : Photo)
          [⟨"2", "b", "u", "f2", 200, 1, 1⟩]).localIdentifier
      = some ⟨2, "b", "p", "f2", 200, 1, 1, "c", "m", some "h1", 0,
          false, false⟩ from rfl] at h2
    injection h2 with h3
    exact h3.symm
  rw [hr2, Option.map_some', hkeep, hmL2]

set_option maxRecDepth 8192 in
/-- Witness for C6 at a concrete input: one confirmed set of two photos;
the accumulated saving equals the per-group totalSize minus the
recommended-keep member's size. -/
theorem buildGroups_spaceSaved_witness :
    (buildGroups
        [⟨1, "a", "p", "f1", 100, 1, 1, "c", "m", some "h1", 0, false, false⟩,
         ⟨2, "b", "p", "f2", 200, 1, 1, "c", "m", some "h1", 0, false, false⟩]
        ⟨[⟨1, "a", "p", "f1", 100, 1, 1, "c", "m", some "h1", 0, false, false⟩,
          ⟨2, "b", "p", "f2", 200, 1, 1, "c", "m", some "h1", 0, false, false⟩],
         [], [], 3, 1⟩
        [[⟨"1", "a", "u", "f1", 100, 1, 1⟩,
          ⟨"2", "b", "u", "f2", 200, 1, 1⟩]]).2.2
      = (((buildGroups
        [⟨1, "a", "p", "f1", 100, 1, 1, "c", "m", some "h1", 0, false, false⟩,
         ⟨2, "b", "p", "f2", 200, 1, 1, "c", "m", some "h1", 0, false, false⟩]
        ⟨[⟨1, "a", "p", "f1", 100, 1, 1, "c", "m", some "h1", 0, false, false⟩,
          ⟨2, "b", "p", "f2", 200, 1, 1, "c", "m", some "h1", 0, false, false⟩],
         [], [], 3, 1⟩
        [[⟨"1", "a", "u", "f1", 100, 1, 1⟩,
          ⟨"2", "b", "u", "f2", 200, 1, 1⟩]]).2.1).map
          (fun g => g.totalSize - sizeOfRecommendedKeep g)).sum :=
  buildGroups_spaceSaved _ _ _ (by
    intro s hs
    simp only [List.mem_cons, List.not_mem_nil, or_false] at hs
    subst hs
    refine ⟨by decide, ?_, by decide, by decide⟩
    intro q hq
    simp only [List.mem_cons, List.not_mem_nil, or_false] at hq
    rcases hq with rfl | rfl
    · exact ⟨⟨1, "a", "p", "f1", 100, 1, 1, "c", "m", some "h1", 0,
        false, false⟩, rfl, rfl⟩
    · exact ⟨⟨2, "b", "p", "f2", 200, 1, 1, "c", "m", some "h1", 0,
        false, false⟩, rfl, rfl⟩)

theorem length_filterMap_congr_isSome {α β γ : Type} (f : α → Option β)
    (g : α → Option γ) (l : List α)
    (h : ∀ a ∈ l, (f a).isSome = (g a).isSome) :
    (l.filterMap f).length = (l.filterMap g).length := by
  induction l with
  | nil => rfl
  | cons a as ih =>
    have ht := h a (List.mem_cons_self a as)
    have ih' := ih (fun x hx => h x (List.mem_cons_of_mem a hx))
    cases hf : f a with
    | none =>
      rw [hf] at ht
      cases hg : g a with
      | none =>
        rw [List.filterMap_cons, hf, List.filterMap_cons, hg]
        exact ih'
      | some c =>
        rw [hg] at ht
        exact absurd ht (by simp)
    | some b =>
      rw [hf] at ht
      cases hg : g a with
      | none =>
        rw [hg] at ht
        exact absurd ht (by simp)
      | some c =>
        rw [List.filterMap_cons, hf, List.filterMap_cons, hg]
        simp [ih']

theorem map_size_filterMap_cacheFind (cache : List PhotoRow) (l : List Photo)
    (h : ∀ q ∈ l, ∃ m, cacheFind cache q.localIdentifier = some m
      ∧ m.fileSize = q.fileSize) :
    ((l.filterMap (fun q => cacheFind cache q.localIdentifier)).map
        (fun m => m.fileSize))
      = l.map (fun q => q.fileSize) := by
  induction l with
  | nil => rfl
  | cons q l ih =>
    obtain ⟨m, hm, hsz⟩ := h q (List.mem_cons_self q l)
    rw [List.filterMap_cons, hm, List.map_cons, List.map_cons, hsz,
      ih (fun x hx => h x (List.mem_cons_of_mem q hx))]

/-- Marking photos duplicate changes neither which photo a membership row
joins to nor its deletion status: the live-member count of any group is
computed over the same rows with the same outcome. -/
theorem liveMembers_length_append (db0 db : DB) (gid : Nat) (N : List Nat)
    (hph : db0.photos = markPhotosDuplicate db.photos N)
    (hgp : db0.groupPhotos = db.groupPhotos
      ++ N.map (fun pid => (⟨gid, pid, false⟩ : GroupPhotoRow)))
    (hlive : ∀ pid ∈ N, ∃ p, getPhoto db pid = some p ∧ p.isDeleted = false) :
    (liveMembers db0 gid).length = (liveMembers db gid).length + N.length := by
  unfold liveMembers
  rw [hgp, hph, List.filter_append, List.filterMap_append, List.length_append]
  congr 1
  · apply length_filterMap_congr_isSome
    intro gp _
    cases hfd : db.photos.find? (fun p => p.id == gp.photoId) with
    | none => simp [find?_id_markPhotosDuplicate, hfd]
    | some p =>
      have hdel2 : (if N.contains p.id
          then ({ p with isDuplicate := true } : PhotoRow) else p).isDeleted
          = p.isDeleted := by
        cases hc : N.contains p.id <;> simp [hc]
      simp only [find?_id_markPhotosDuplicate, hfd, Option.map_some']
      rw [hdel2]
      cases p.isDeleted <;> simp
  · rw [List.filter_eq_self.mpr (fun gp hgp2 => by
      obtain ⟨pid, _, rfl⟩ := List.mem_map.mp hgp2
      simp)]
    refine Eq.trans (length_filterMap_of_isSome _ _ ?_) (List.length_map _ _)
    intro gp hgp2
    obtain ⟨pid, hpidN, rfl⟩ := List.mem_map.mp hgp2
    obtain ⟨p, hp, hdel⟩ := hlive pid hpidN
    have hfindp : (markPhotosDuplicate db.photos N).find? (fun q => q.id == pid)
        = some (if N.contains p.id then { p with isDuplicate := true } else p) := by
      rw [find?_id_markPhotosDuplicate,
        show db.photos.find? (fun q => q.id == pid) = some p from hp]
      rfl
    by_cases hc : p.id ∈ N <;> simp [hfindp, hc, hdel]

/-- Claim C5 amended (proved): the stored invariant holds after both
membership-adding store operations, and the corresponding equalities
hold in the returned group objects — it is only photo deletion that
breaks the stored invariant (see the counterexample).  Part one: after
`createDuplicateGroup` creates a new group from stored live photos, its
stored member count and aggregate size equal its live member count and
live size sum.  Part two: the same holds after a merge, provided the
group satisfied the invariant before and the supplied photos are stored
and live.  Part three: in each group object built for the returned
result, `photoCount` equals the number of `photos` and `totalSize`
equals the sum of those photos' byte sizes, given each member's cached
metadata carries the member's size. -/
theorem group_consistency_after_membership_change :
    (∀ (db : DB) (h : String) (ids : List Nat),
      db.groups.find? (fun g => g.groupHash == h) = none →
      (∀ gp ∈ db.groupPhotos, gp.groupId ≠ db.nextGroupId) →
      (∀ pid ∈ ids, ∃ p, getPhoto db pid = some p ∧ p.isDeleted = false) →
      ∃ g' ∈ (createDuplicateGroup db h ids).1.groups,
        g'.id = (createDuplicateGroup db h ids).2
        ∧ g'.photoCount
            = (liveMembers (createDuplicateGroup db h ids).1 g'.id).length
        ∧ g'.totalSize = liveSize (createDuplicateGroup db h ids).1 g'.id)
    ∧ (∀ (db : DB) (h : String) (ids : List Nat) (g : GroupRow),
      db.groups.find? (fun x => x.groupHash == h) = some g →
      g.photoCount = (liveMembers db g.id).length →
      g.totalSize = liveSize db g.id →
      (∀ pid ∈ ids, ∃ p, getPhoto db pid = some p ∧ p.isDeleted = false) →
      ∃ g' ∈ (createDuplicateGroup db h ids).1.groups,
        g'.id = (createDuplicateGroup db h ids).2
        ∧ g'.photoCount
            = (liveMembers (createDuplicateGroup db h ids).1 g'.id).length
        ∧ g'.totalSize = liveSize (createDuplicateGroup db h ids).1 g'.id)
    ∧ (∀ (cache : List PhotoRow) (db : DB) (p : Photo) (rest : List Photo),
      (∀ q ∈ p :: rest, ∃ m, cacheFind cache q.localIdentifier = some m
        ∧ m.fileSize = q.fileSize) →
      2 ≤ (p :: rest).length →
      ∃ r, (mkGroup cache db (p :: rest)).2 = some r
        ∧ r.1.photoCount = r.1.photos.length
        ∧ r.1.totalSize = (r.1.photos.map (fun m => m.fileSize)).sum) := by
  refine ⟨createDuplicateGroup_new_group_consistent, ?_, ?_⟩
  · intro db h ids g hfind hcount hsize hlive
    by_cases hpos :
        0 < (ids.filter (fun pid => !((memberIds db g.id).contains pid))).length
    · simp only [createDuplicateGroup, hfind, if_pos hpos]
      refine ⟨⟨g.id, g.groupHash,
        g.photoCount
          + (ids.filter (fun pid => !((memberIds db g.id).contains pid))).length,
        liveSize (mergePersist db g.id g.photoCount
          (ids.filter (fun pid => !((memberIds db g.id).contains pid)))) g.id⟩,
        ?_, rfl, ?_, rfl⟩
      · rw [show (updateGroupTotalSize (mergePersist db g.id g.photoCount
            (ids.filter (fun pid => !((memberIds db g.id).contains pid))))
              g.id).groups
          = ((db.groups.map (fun x => if x.id == g.id
              then { x with photoCount := g.photoCount
                + (ids.filter
                    (fun pid => !((memberIds db g.id).contains pid))).length }
              else x)).map (fun x => if x.id == g.id
              then { x with totalSize := liveSize (mergePersist db g.id
                g.photoCount (ids.filter
                  (fun pid => !((memberIds db g.id).contains pid)))) g.id }
              else x)) from rfl]
        refine List.mem_map.mpr
          ⟨_, List.mem_map.mpr ⟨g, List.mem_of_find?_eq_some hfind, rfl⟩, ?_⟩
        simp
      · show g.photoCount + _ = _
        rw [liveMembers_length_append
          (updateGroupTotalSize (mergePersist db g.id g.photoCount
            (ids.filter (fun pid => !((memberIds db g.id).contains pid)))) g.id)
          db g.id
          (ids.filter (fun pid => !((memberIds db g.id).contains pid)))
          rfl rfl
          (fun pid hpid => hlive pid (List.mem_of_mem_filter hpid)),
          hcount]
    · simp only [createDuplicateGroup, hfind, if_neg hpos]
      exact ⟨g, List.mem_of_find?_eq_some hfind, rfl, hcount, hsize⟩
  · intro cache db p rest H1 hlen2
    have hsome : ∀ q ∈ p :: rest, (cacheFind cache q.localIdentifier).isSome := by
      intro q hq
      obtain ⟨m, hm, _⟩ := H1 q hq
      rw [hm]
      rfl
    have hlenM : ((p :: rest).filterMap
        (fun q => cacheFind cache q.localIdentifier)).length
        = (p :: rest).length :=
      length_filterMap_of_isSome _ _ hsome
    have hgt : 1 < ((p :: rest).filterMap
        (fun q => cacheFind cache q.localIdentifier)).length := by
      rw [hlenM]
      exact lt_of_lt_of_le Nat.one_lt_two hlen2
    simp only [mkGroup]
    rw [if_pos hgt]
    refine ⟨_, rfl, ?_, ?_⟩
    · show (p :: rest).length = ((p :: rest).filterMap
        (fun q => cacheFind cache q.localIdentifier)).length
      exact hlenM.symm
    · show ((p :: rest).map (fun q => q.fileSize)).sum
        = (((p :: rest).filterMap
            (fun q => cacheFind cache q.localIdentifier)).map
          (fun m => m.fileSize)).sum
      rw [map_size_filterMap_cacheFind cache _ H1]

/-- Witness for the amended C5 theorem: merging one new live photo into an
existing consistent one-member group leaves the group consistent. -/
theorem group_consistency_after_membership_change_witness :
    ∃ g' ∈ (createDuplicateGroup
      ⟨[⟨1, "a", "p", "f1", 100, 1, 1, "c", "m", none, 0, false, false⟩,
        ⟨2, "b", "p", "f2", 200, 1, 1, "c", "m", none, 0, false, false⟩],
       [⟨1, "gh", 1, 100⟩], [⟨1, 1, true⟩], 3, 2⟩ ("gh") [1, 2]).1.groups,
      g'.id = (createDuplicateGroup
        ⟨[⟨1, "a", "p", "f1", 100, 1, 1, "c", "m", none, 0, false, false⟩,
          ⟨2, "b", "p", "f2", 200, 1, 1, "c", "m", none, 0, false, false⟩],
         [⟨1, "gh", 1, 100⟩], [⟨1, 1, true⟩], 3, 2⟩ ("gh") [1, 2]).2
      ∧ g'.photoCount = (liveMembers (createDuplicateGroup
          ⟨[⟨1, "a", "p", "f1", 100, 1, 1, "c", "m", none, 0, false, false⟩,
            ⟨2, "b", "p", "f2", 200, 1, 1, "c", "m", none, 0, false, false⟩],
           [⟨1, "gh", 1, 100⟩], [⟨1, 1, true⟩], 3, 2⟩ ("gh") [1, 2]).1
          g'.id).length
      ∧ g'.totalSize = liveSize (createDuplicateGroup
          ⟨[⟨1, "a", "p", "f1", 100, 1, 1, "c", "m", none, 0, false, false⟩,
            ⟨2, "b", "p", "f2", 200, 1, 1, "c", "m", none, 0, false, false⟩],
           [⟨1, "gh", 1, 100⟩], [⟨1, 1, true⟩], 3, 2⟩ ("gh") [1, 2]).1 g'.id :=
  group_consistency_after_membership_change.2.1
    ⟨[⟨1, "a", "p", "f1", 100, 1, 1, "c", "m", none, 0, false, false⟩,
      ⟨2, "b", "p", "f2", 200, 1, 1, "c", "m", none, 0, false, false⟩],
     [⟨1, "gh", 1, 100⟩], [⟨1, 1, true⟩], 3, 2⟩ ("gh") [1, 2]
    ⟨1, "gh", 1, 100⟩ rfl (by decide) (by decide)
    (by
      intro pid hpid
      simp only [List.mem_cons, List.not_mem_nil, or_false] at hpid
      rcases hpid with rfl | rfl
      · exact ⟨⟨1, "a", "p", "f1", 100, 1, 1, "c", "m", none, 0, false, false⟩,
          rfl, rfl⟩
      · exact ⟨⟨2, "b", "p", "f2", 200, 1, 1, "c", "m", none, 0, false, false⟩,
          rfl, rfl⟩)

end AIPhotoCleaner
